import Mathlib

/-!
Verification of the CancerGrowthDynamics batch scripts.

The repository is a set of independent Python scripts that parse metadata out
of image filenames, group CSV measurement rows, compute descriptive statistics
(mean, sample SD, SEM, 95% CI) and write CSV files.  This file gives a shallow
embedding of the relevant functions and proves (or refutes) the frozen claims
about them.

Numeric modelling: Python float arithmetic is idealised as exact rational
arithmetic over `ℚ`.  `math.sqrt` (and the square root inside
`statistics.stdev` / pandas `std`/`sem`) is modelled by an arbitrary function
parameter `sqrt : ℚ → ℚ`: the claims about the statistics are relations that
the scripts establish syntactically, so they hold for every interpretation of
the square root.  A pandas `NaN` result is modelled as `Option.none`.
-/

namespace CGD

/-! ## Character and digit utilities (regex building blocks)

The scripts use `re.search` with the patterns `Day(\d+)`, `Tile-(\d+)`,
`_([A-Z]\d+)\.tif`, `_Day(\d+)_` (IGNORECASE) and `_([AB])([1-6])\.tif$`
(IGNORECASE).  `\d` is modelled as an ASCII digit (the filenames at hand are
ASCII; Python's `\d` additionally accepts other Unicode decimal digits). -/

/-- Maximal leading run of ASCII digits, and the remainder: the greedy `\d+`.
(For all patterns in this repository the character after `(\d+)` can never be
a digit, so the greedy match never needs to backtrack.) -/
def takeDigits : List Char → List Char × List Char
  | [] => ([], [])
  | c :: rest =>
    if c.isDigit then
      let (ds, r) := takeDigits rest
      (c :: ds, r)
    else ([], c :: rest)

/-- Value of a nonempty digit string, as Python's `int()` computes it. -/
def digitsVal (ds : List Char) : Nat :=
  ds.foldl (fun a c => 10 * a + (c.toNat - '0'.toNat)) 0

/-- `re.search` semantics: try the pattern matcher `m` at every position of
the string, left to right (including the final empty suffix), and return the
first success. -/
def scan (m : List Char → Option α) : List Char → Option α
  | [] => m []
  | c :: rest =>
    match m (c :: rest) with
    | some v => some v
    | none => scan m rest

/-- Lexicographic comparison of character lists by code point: Python's
`<=` on strings, used by `sorted`/`list.sort`/`sort_values` key comparisons. -/
def lexLe : List Char → List Char → Bool
  | [], _ => true
  | _ :: _, [] => false
  | a :: as, b :: bs => if a < b then true else if b < a then false else lexLe as bs

/-- Python `<=` on strings. -/
def strLe (a b : String) : Prop := lexLe a.data b.data = true

instance : DecidableRel strLe := fun a b =>
  inferInstanceAs (Decidable (lexLe a.data b.data = true))

/-! ## Statistics kernels

`statistics.mean` / `statistics.stdev` (used by `compute_sample_averages.py`
and `compute_group_day_averages.py`) and the pandas aggregations `mean`,
`std`, `sem` (ddof = 1; used by the Intermittent-Data scripts). -/

/-- Arithmetic mean (`statistics.mean`, pandas `mean`). -/
def mean (l : List ℚ) : ℚ := l.sum / l.length

/-- Sample variance with denominator `n - 1`, the quantity whose square root
`statistics.stdev` and pandas `std` (ddof = 1) return. -/
def sampleVar (l : List ℚ) : ℚ :=
  ((l.map fun x => (x - mean l) ^ 2).sum) / ((l.length : ℚ) - 1)

/-- `statistics.stdev`, for a group already known to have `n ≥ 2`. -/
def stdev (sqrt : ℚ → ℚ) (l : List ℚ) : ℚ := sqrt (sampleVar l)

/-- The SD reported per `(Day, Well)` group by `per_day_sample_stats`
(`compute_sample_averages.py` line 78) and per day by
`write_per_file_day_averages` (`compute_group_day_averages.py` line 52):
`sd = stdev(vals) if n >= 2 else 0.0`. -/
def sdOfGroup (sqrt : ℚ → ℚ) (vals : List ℚ) : ℚ :=
  if 2 ≤ vals.length then stdev sqrt vals else 0

/-- The SEM reported by the same two scripts (lines 79 and 53):
`sem = sd / math.sqrt(n) if n > 0 else 0.0`. -/
def semOfGroup (sqrt : ℚ → ℚ) (vals : List ℚ) : ℚ :=
  if 0 < vals.length then sdOfGroup sqrt vals / sqrt vals.length else 0

/-- pandas `std` (ddof = 1) on a group of non-NaN values: for `n < 2` the
denominator `n - ddof` is `0` and the result is NaN (`none`). -/
def pandasStd (sqrt : ℚ → ℚ) (vals : List ℚ) : Option ℚ :=
  if 2 ≤ vals.length then some (sqrt (sampleVar vals)) else none

/-- pandas `sem` (ddof = 1): `nansem` computes `sqrt(var) / sqrt(count)`;
NaN (`none`) exactly when the variance is NaN, i.e. `n < 2`. -/
def pandasSem (sqrt : ℚ → ℚ) (vals : List ℚ) : Option ℚ :=
  if 2 ≤ vals.length then some (sqrt (sampleVar vals) / sqrt vals.length) else none

/-! ## Filename parsers

`parse_filename_components` (`Intermittent Data/create_averages.py` lines
6-22), `parse_day_and_well` (`compute_sample_averages.py` lines 31-36) and
`classify_image` (`split_untreated_monoculture.py` lines 44-54). -/

/-- One attempt of `Day(\d+)` at the head of the string. -/
def matchDayAt : List Char → Option Nat
  | 'D' :: 'a' :: 'y' :: rest =>
    let (ds, _) := takeDigits rest
    if ds.isEmpty then none else some (digitsVal ds)
  | _ => none

/-- One attempt of `Tile-(\d+)` at the head of the string. -/
def matchTileAt : List Char → Option Nat
  | 'T' :: 'i' :: 'l' :: 'e' :: '-' :: rest =>
    let (ds, _) := takeDigits rest
    if ds.isEmpty then none else some (digitsVal ds)
  | _ => none

/-- One attempt of `_([A-Z]\d+)\.tif` at the head of the string, returning
the captured well token `[A-Z]\d+`. -/
def matchWellAt : List Char → Option (List Char)
  | '_' :: c :: rest =>
    if 'A' ≤ c ∧ c ≤ 'Z' then
      let (ds, r) := takeDigits rest
      if ds.isEmpty then none
      else if ".tif".toList.isPrefixOf r then some (c :: ds) else none
    else none
  | _ => none

/-- `parse_filename_components(filename)`: `re.search` of the three patterns,
`None` for a pattern with no match anywhere in the string. -/
def parse_filename_components (filename : String) :
    Option Nat × Option Nat × Option String :=
  (scan matchDayAt filename.data,
   scan matchTileAt filename.data,
   (scan matchWellAt filename.data).map fun cs => String.mk cs)

/-- One attempt of `_Day(\d+)_` (IGNORECASE) at the head of the string. -/
def matchUDayAt : List Char → Option Nat
  | '_' :: d :: a :: y :: rest =>
    if (d = 'D' ∨ d = 'd') ∧ (a = 'a' ∨ a = 'A') ∧ (y = 'y' ∨ y = 'Y') then
      let (ds, r) := takeDigits rest
      if ds.isEmpty then none
      else if r.head? = some '_' then some (digitsVal ds) else none
    else none
  | _ => none

/-- The fixed-width pattern `_([AB])([1-6])\.tif` (IGNORECASE), checked on a
reversed string. -/
def matchWellEndRev : List Char → Option (Char × Char)
  | f :: i :: t :: d :: c :: r :: u :: _ =>
    if (f = 'f' ∨ f = 'F') ∧ (i = 'i' ∨ i = 'I') ∧ (t = 't' ∨ t = 'T') ∧
       d = '.' ∧ ('1' ≤ c ∧ c ≤ '6') ∧ (r = 'A' ∨ r = 'a' ∨ r = 'B' ∨ r = 'b') ∧
       u = '_' then
      some (r, c)
    else none
  | _ => none

/-- The fixed-width pattern `_([AB])([1-6])\.tif` (IGNORECASE) matched
against the last seven characters of the string, returning the captured row
letter and column digit. -/
def matchWellEnd (l : List Char) : Option (Char × Char) :=
  matchWellEndRev l.reverse

/-- `re.search` of `_([AB])([1-6])\.tif$` (IGNORECASE).  Without
`re.MULTILINE`, `$` matches at the end of the string or just before a newline
at the end of the string; since the pattern has fixed width and cannot end in
a newline, the only candidate positions are the last seven characters and,
when the string ends in `'\n'`, the seven characters before that newline. -/
def searchWellEnd (l : List Char) : Option (Char × Char) :=
  match matchWellEnd l with
  | some v => some v
  | none => if l.getLast? = some '\n' then matchWellEnd l.dropLast else none

/-- `parse_day_and_well(image)`: `None` unless both regexes match, else the
day number and the upper-cased well token. -/
def parse_day_and_well (image : String) : Option (Nat × String) :=
  match scan matchUDayAt image.data, searchWellEnd image.data with
  | some d, some (r, c) => some (d, String.mk [r.toUpper, c])
  | _, _ => none

/-- `classify_image(image_name)` (`split_untreated_monoculture.py`):
row `A` maps to seeding `20k`, row `B` to `30k`; columns `1-3` to
`A2780Naive`, columns `4-6` to `A2780cis`. -/
def classify_image (image_name : String) : Option (String × String) :=
  match searchWellEnd image_name.data with
  | none => none
  | some (r, c) =>
    some (if r.toUpper = 'A' then "20k" else "30k",
          if c = '1' ∨ c = '2' ∨ c = '3' then "A2780Naive" else "A2780cis")

/-! ## process_area_data.py -/

/-- A CSV / DataFrame cell: a string or a (parsed) number. -/
inductive Cell where
  | str (s : String)
  | num (q : ℚ)
deriving DecidableEq

/-- A DataFrame: column names and rows of cells. -/
structure Frame where
  cols : List String
  rows : List (List Cell)
deriving DecidableEq

/-- Index of the first column with the given label (`df.columns` lookup). -/
def findColIdx (name : String) : List String → Option Nat
  | [] => none
  | c :: cs => if c = name then some 0 else (findColIdx name cs).map (· + 1)

/-- `df['Area µm^2'] = df['Area µm^2'] / 144`: divide the cell at index `i`
of every row by 144.  A non-numeric cell makes the whole pandas column
operation raise (`none`), which `process_csv_file` catches. -/
def divideRows (i : Nat) : List (List Cell) → Option (List (List Cell))
  | [] => some []
  | r :: rs =>
    match r[i]? with
    | some (.num q) => (divideRows i rs).map fun rs2 => r.set i (.num (q / 144)) :: rs2
    | _ => none

/-- Outcome of `process_csv_file` (`process_area_data.py` lines 19-57):
`written g` is the `True` branch after saving `g`; `missingColumn` is the
early-return branch of lines 35-37, which prints a warning and returns
`False` without raising; `failed` is the `except` branch of lines 55-57. -/
inductive ProcOutcome where
  | written (f : Frame)
  | missingColumn
  | failed
deriving DecidableEq

/-- `df.rename(columns={'Area µm^2': 'Cells'})` on one column label. -/
def renameAreaCol (c : String) : String := if c = "Area µm^2" then "Cells" else c

/-- `process_csv_file` (`process_area_data.py`): check the column exists,
divide it by 144, rename it to `Cells`, write the result. -/
def process_csv_file (f : Frame) : ProcOutcome :=
  match findColIdx "Area µm^2" f.cols with
  | none => .missingColumn
  | some i =>
    match divideRows i f.rows with
    | none => .failed
    | some rows2 => .written { cols := f.cols.map renameAreaCol, rows := rows2 }

/-- The boolean return value of `process_csv_file`. -/
def procOk : ProcOutcome → Bool
  | .written _ => true
  | .missingColumn => false
  | .failed => false

/-- The file written by `process_csv_file`, if any. -/
def writtenFrame : ProcOutcome → Option Frame
  | .written f => some f
  | .missingColumn => none
  | .failed => none

/-- The batch loop of `main` (`process_area_data.py` lines 90-103): process
every file in order, counting `(successful, failed)`; no outcome aborts the
loop. -/
def processAll (fs : List Frame) : Nat × Nat :=
  fs.foldl
    (fun acc f =>
      if procOk (process_csv_file f) then (acc.1 + 1, acc.2) else (acc.1, acc.2 + 1))
    (0, 0)

/-! ## split_seeding_data.py -/

/-- Python `str.split('_')` at the character level. -/
def splitOnChar (sep : Char) (l : List Char) : List (List Char) :=
  l.foldr
    (fun c acc =>
      match acc with
      | cur :: rest => if c = sep then [] :: cur :: rest else (c :: cur) :: rest
      | [] => [[c]])
    [[]]

/-- Python `str.replace(pat, '')`: remove every leftmost, non-overlapping
occurrence of the (nonempty) pattern. -/
def removeOcc (pat : List Char) : List Char → List Char
  | [] => []
  | c :: rest =>
    if pat ≠ [] ∧ pat.isPrefixOf (c :: rest) then
      removeOcc pat (rest.drop (pat.length - 1))
    else c :: removeOcc pat rest
termination_by l => l.length
decreasing_by
  · simp only [List.length_drop, List.length_cons]
    omega
  · simp

/-- `extract_well_from_filename` (`split_seeding_data.py` lines 32-41):
split the filename on `'_'`, take the first part that ends with `.tif`, and
strip `.tif` from it with `str.replace`. -/
def extract_well_from_filename (filename : String) : Option String :=
  match (splitOnChar '_' filename.data).find? fun p => ".tif".toList.isSuffixOf p with
  | some p => some (String.mk (removeOcc ".tif".toList p))
  | none => none

/-- A data row of a combined CSV handled by `split_seeding_data.py`: the
`Image` cell and the rest of the row.  The helper `Well` column the script
adds is dropped again before writing, so output rows equal input rows. -/
structure SRow where
  image : String
  rest : List String
deriving DecidableEq

/-- `df['Well'].isin(ws)` for one row: `False` when the extracted well is
`None`. -/
def wellIn (ws : List String) (r : SRow) : Bool :=
  match extract_well_from_filename r.image with
  | some w => ws.contains w
  | none => false

/-- `split_csv_by_wells` (`split_seeding_data.py` lines 43-64): the rows of
the 20k-seeding output file and of the 30k-seeding output file. -/
def split_csv_by_wells (rows : List SRow) (w20 w30 : List String) :
    List SRow × List SRow :=
  (rows.filter (wellIn w20), rows.filter (wellIn w30))

/-- `file_well_mapping` (`split_seeding_data.py` lines 13-30):
file name, 20k wells, 30k wells. -/
def file_well_mapping : List (String × List String × List String) := [
  ("A2780cisT.csv", ["C4", "C5", "C6"], ["D4", "D5", "D6"]),
  ("A2780cisUT.csv", ["A4", "A5", "A6"], ["B4", "B5", "B6"]),
  ("A2780UT.csv", ["A1", "A2", "A3"], ["B1", "B2", "B3"]),
  ("A2780T.csv", ["C1", "C2", "C3"], ["D1", "D2", "D3"])]

/-! ## split_untreated_monoculture.py -/

/-- The canonical header of `split_csvs`: the first row of the first
non-empty input file (later files are validated against it). -/
def canonicalHeader : List (List (List String)) → Option (List String)
  | [] => none
  | f :: fs =>
    match f with
    | [] => canonicalHeader fs
    | hdr :: _ => some hdr

/-- All data rows of the input files: each file's rows after its header row,
in file order (each file's first row is consumed by `next(reader)`). -/
def dataRows (files : List (List (List String))) : List (List String) :=
  (files.map fun f => f.drop 1).flatten

/-- The per-row guard of `split_csvs` (line 93): keep a row iff it is
non-empty and has exactly as many cells as the canonical header. -/
def rowKeep (hdrLen : Nat) (r : List String) : Bool :=
  !r.isEmpty && r.length == hdrLen

/-- The order used by `rows.sort(key=lambda r: r[0])` (line 118): compare
rows by their first cell as Python strings. -/
def rowLe (a b : List String) : Prop :=
  lexLe (a.headD "").data (b.headD "").data = true

instance : DecidableRel rowLe := fun a b =>
  inferInstanceAs (Decidable (lexLe (a.headD "").data (b.headD "").data = true))

/-- The four bucket keys, in the order the script writes the output files. -/
def bucketKeys : List (String × String) :=
  [("20k", "A2780Naive"), ("20k", "A2780cis"),
   ("30k", "A2780Naive"), ("30k", "A2780cis")]

/-- One output file of `split_csvs`: the kept rows whose image (first cell)
classifies to bucket `k`, in encounter order, then sorted by image with
Python's stable sort (modelled by stable `insertionSort`). -/
def bucketRows (k : String × String) (kept : List (List String)) :
    List (List String) :=
  List.insertionSort rowLe
    (kept.filter fun r => decide (classify_image (r.headD "") = some k))

/-- The pure core of `split_csvs` (`split_untreated_monoculture.py` lines
57-123): from the parsed input files, the canonical header and the rows of
the four output files `20k/A2780Naive.csv`, `20k/A2780cis.csv`,
`30k/A2780Naive.csv`, `30k/A2780cis.csv`.  `none` models the early return
when no input file has a header (nothing is written). -/
def split_csvs (files : List (List (List String))) :
    Option (List String ×
      (List (List String) × List (List String) ×
       List (List String) × List (List String))) :=
  match canonicalHeader files with
  | none => none
  | some hdr =>
    let kept := (dataRows files).filter (rowKeep hdr.length)
    some (hdr,
      (bucketRows ("20k", "A2780Naive") kept,
       bucketRows ("20k", "A2780cis") kept,
       bucketRows ("30k", "A2780Naive") kept,
       bucketRows ("30k", "A2780cis") kept))

/-- The C10 claim's matching condition, following the spec's words: the
filename ends in `_<A-or-B><1-6>.tif` (case-insensitive).  This is exactly
a check of the last seven characters, which `matchWellEnd` performs; the
theorem `matchWellEnd_eq_some_iff` below states the decomposition
explicitly. -/
def endsInWellTif (s : String) : Bool := (matchWellEnd s.data).isSome

/-! ## fix_processed_headers.py -/

/-- The `RENAMES` table (`fix_processed_headers.py` lines 23-41). -/
def RENAMES : List (String × String) := [
  ("Area µm^2", "Cells"),
  ("Mean Area µm^2", "Mean Cells"),
  ("SD Area µm^2", "SD Cells"),
  ("SEM Area µm^2", "SEM Cells"),
  ("Average_Area_um2", "Average_Cells"),
  ("StdDev_Area_um2", "StdDev_Cells"),
  ("Min_Area_um2", "Min_Cells"),
  ("Max_Area_um2", "Max_Cells"),
  ("Mean_Area_um2", "Mean_Cells"),
  ("Std_Dev_um2", "Std_Dev_Cells"),
  ("Std_Error_um2", "Std_Error_Cells"),
  ("CI_95_Margin_um2", "CI_95_Margin_Cells"),
  ("CI_95_Lower_um2", "CI_95_Lower_Cells"),
  ("CI_95_Upper_um2", "CI_95_Upper_Cells")]

/-- `RENAMES.get(h, h)`: look a header name up in the rename table, keeping
it unchanged when absent. -/
def renameHeader (h : String) : String :=
  match RENAMES.find? fun p => p.1 == h with
  | some p => p.2
  | none => h

/-- `rewrite_csv_headers` (`fix_processed_headers.py` lines 44-63) on the
parsed rows of one CSV file: `none` means the file is not rewritten (the
`return False` paths for an empty file or an unchanged header); `some out`
means `out` is written back. -/
def rewrite_csv_headers (rows : List (List String)) : Option (List (List String)) :=
  match rows with
  | [] => none
  | header :: rest =>
    let newHeader := header.map renameHeader
    if newHeader = header then none else some (newHeader :: rest)

/-! ## Intermittent-Data aggregators (pandas based) -/

/-- Floor of a rational, written explicitly so that it evaluates by kernel
reduction. -/
def ratFloor (x : ℚ) : ℤ := Int.fdiv x.num x.den

/-- Round half to even (numpy/pandas rounding). -/
def roundHalfEven (x : ℚ) : ℤ :=
  let f := ratFloor x
  if x - f < 1 / 2 then f
  else if (1 : ℚ) / 2 < x - f then f + 1
  else if f % 2 = 0 then f else f + 1

/-- pandas `.round(2)`. -/
def round2 (x : ℚ) : ℚ := (roundHalfEven (100 * x) : ℚ) / 100

/-- pandas `min` over a (nonempty) group. -/
def listMin : List ℚ → ℚ
  | [] => 0
  | v :: vs => vs.foldl min v

/-- pandas `max` over a (nonempty) group. -/
def listMax : List ℚ → ℚ
  | [] => 0
  | v :: vs => vs.foldl max v

/-- The well grouping key computed by `create_averages.py`:
`df['Well'] = df['Image'].apply(lambda x: parse_filename_components(x)[2])`. -/
def wellKey (image : String) : Option String :=
  (scan matchWellAt image.data).map fun cs => String.mk cs

/-- One output row of `create_sample_averages`
(`Intermittent Data/create_averages.py` lines 46-79): columns
`Well, Average_Cells, StdDev_Cells, Total_Measurements, Min_Cells, Max_Cells`.
pandas NaN (the `std` of a single value) is `none`. -/
structure SampleAvgRow where
  well : String
  averageCells : ℚ
  stdDevCells : Option ℚ
  totalMeasurements : Nat
  minCells : ℚ
  maxCells : ℚ
deriving DecidableEq

/-- `create_sample_averages` (`Intermittent Data/create_averages.py`):
group the value column by the parsed `Well` key (pandas `groupby` drops rows
whose key is NaN and sorts the group keys), aggregate
`mean, std, count, min, max`, and round the four value columns to two
decimals.  A row is `(Image, value)`. -/
def create_sample_averages (sqrt : ℚ → ℚ) (rows : List (String × ℚ)) :
    List SampleAvgRow :=
  let tagged := rows.filterMap fun r => (wellKey r.1).map fun w => (w, r.2)
  let wells := List.insertionSort strLe (tagged.map Prod.fst).dedup
  wells.map fun w =>
    let vals := (tagged.filter fun t => t.1 = w).map Prod.snd
    { well := w
      averageCells := round2 (mean vals)
      stdDevCells := (pandasStd sqrt vals).map round2
      totalMeasurements := vals.length
      minCells := round2 (listMin vals)
      maxCells := round2 (listMax vals) }

/-- One output row of `create_day_averages`
(`Intermittent Data/create_day_averages.py` lines 26-51): columns
`Day, Mean_Cells, Std_Dev_Cells, Sample_Count, Std_Error_Cells,
CI_95_Margin_Cells, CI_95_Lower_Cells, CI_95_Upper_Cells`.
pandas NaN is `none`. -/
structure DayStatsRow where
  day : Nat
  meanCells : ℚ
  stdDevCells : Option ℚ
  sampleCount : Nat
  stdErrorCells : Option ℚ
  ciMarginCells : Option ℚ
  ciLowerCells : Option ℚ
  ciUpperCells : Option ℚ
deriving DecidableEq

/-- The per-day record computed by `create_day_averages`
(`Intermittent Data/create_day_averages.py`): pandas
`agg(['mean','std','count','sem'])` on the day's values followed by
`CI_95_Margin = 1.96 * Std_Error`, `CI_95_Lower = Mean - Margin` and
`CI_95_Upper = Mean + Margin` (`z_critical = 1.96`; arithmetic on NaN stays
NaN). -/
def dayStatsRow (sqrt : ℚ → ℚ) (day : Nat) (vals : List ℚ) : DayStatsRow :=
  let m := mean vals
  let sem := pandasSem sqrt vals
  let margin := sem.map fun s => (196 / 100 : ℚ) * s
  { day := day
    meanCells := m
    stdDevCells := pandasStd sqrt vals
    sampleCount := vals.length
    stdErrorCells := sem
    ciMarginCells := margin
    ciLowerCells := margin.map fun mg => m - mg
    ciUpperCells := margin.map fun mg => m + mg }

/-! ## Grouping keys used by the aggregators (for the exclusion claims) -/

/-- The `(Day, Well)` grouping key of `create_day_averages`
(`Intermittent Data/create_averages.py` lines 28-35): the parsed `Day` and
`Well` columns; `none` when either parse failed (pandas `groupby` drops rows
whose grouping key is NaN). -/
def groupKeyDW (img : String) : Option (Nat × String) :=
  match scan matchDayAt img.data, scan matchWellAt img.data with
  | some d, some w => some (d, String.mk w)
  | _, _ => none

/-- The values of one `(Day, Well)` group of `create_day_averages`
(`Intermittent Data/create_averages.py`): the value cells of the rows whose
key equals `k`, in row order. -/
def day_well_group (rows : List (String × ℚ)) (k : Nat × String) : List ℚ :=
  (rows.filter fun r => decide (groupKeyDW r.1 = some k)).map Prod.snd

/-- The tile values accumulated for one `(Day, Well)` key by
`per_day_sample_stats` (`compute_sample_averages.py` lines 55-66): rows with
an unparseable filename or (`none`-modelled) unparseable float are skipped
by `continue`. -/
def tiles_group (rows : List (String × Option ℚ)) (k : Nat × String) : List ℚ :=
  (rows.filter fun r => decide (parse_day_and_well r.1 = some k)).filterMap Prod.snd

/-! ## CSV writers: encoding and header rows (claim C7)

Each script writes its output either with Python's `csv` module on a file
opened with `encoding="utf-8-sig"` (UTF-8 with a byte-order mark), or with
pandas `DataFrame.to_csv(path, index=False)`, whose default encoding is
plain UTF-8 without a byte-order mark.  `CsvOut` records the presence of the
BOM, the header row written first, and the data rows. -/

/-- An output CSV file: BOM flag, header row, data rows. -/
structure CsvOut where
  bom : Bool
  header : List String
  dataRows : List (List String)
deriving DecidableEq

/-- `open(path, "w", encoding="utf-8-sig")` + `csv.writer`: header row first,
then the data rows; a BOM is written. -/
def writeCsvUtf8Sig (hdr : List String) (rows : List (List String)) : CsvOut :=
  ⟨true, hdr, rows⟩

/-- `df.to_csv(path, index=False)`: the column names as header row, then the
data rows; the default encoding is UTF-8 without a BOM. -/
def pandas_to_csv (hdr : List String) (rows : List (List String)) : CsvOut :=
  ⟨false, hdr, rows⟩

/-- The file written by `per_day_sample_stats` (`compute_sample_averages.py`
lines 84-88); the header literals reproduce the source's mojibake `Âµ`. -/
def per_day_sample_stats_out (rows : List (List String)) : CsvOut :=
  writeCsvUtf8Sig
    ["Day", "Well", "N Tiles", "Mean Area Âµm^2", "SD Area Âµm^2", "SEM Area Âµm^2"]
    rows

/-- The file written by `write_per_file_day_averages`
(`compute_group_day_averages.py` lines 43-54). -/
def write_per_file_day_averages_out (rows : List (List String)) : CsvOut :=
  writeCsvUtf8Sig
    ["Day", "N Samples", "Mean Area µm^2", "SD Area µm^2", "SEM Area µm^2"]
    rows

/-- The two files written by `split_csv_by_wells` (`split_seeding_data.py`
lines 63-64): `df.to_csv` with the frame's columns. -/
def split_seeding_to_csv (cols : List String) (rows : List (List String)) : CsvOut :=
  pandas_to_csv cols rows

/-- The file written by `split_csvs` (`split_untreated_monoculture.py` lines
119-122): canonical header first, `utf-8-sig`. -/
def split_csvs_out (hdr : List String) (rows : List (List String)) : CsvOut :=
  writeCsvUtf8Sig hdr rows

/-- The file written by `create_sample_averages`
(`Intermittent Data/create_averages.py` lines 60-78). -/
def create_sample_averages_out (rows : List (List String)) : CsvOut :=
  pandas_to_csv
    ["Well", "Average_Cells", "StdDev_Cells", "Total_Measurements",
     "Min_Cells", "Max_Cells"]
    rows

/-- The file written by `create_day_averages` of
`Intermittent Data/create_averages.py` (lines 36-43). -/
def create_day_averages_out (rows : List (List String)) : CsvOut :=
  pandas_to_csv ["Day", "Well", "Average_Cells", "Tile_Count"] rows

/-- The file written by `process_directory` from the day statistics of
`create_day_averages` (`Intermittent Data/create_day_averages.py` lines
39-49 and 82). -/
def day_averages_out (rows : List (List String)) : CsvOut :=
  pandas_to_csv
    ["Day", "Mean_Cells", "Std_Dev_Cells", "Sample_Count", "Std_Error_Cells",
     "CI_95_Margin_Cells", "CI_95_Lower_Cells", "CI_95_Upper_Cells"]
    rows

end CGD

namespace CGD

/-! ## Lemmas about the `re.search` scanner -/

theorem scan_of_match {m : List Char → Option α} {l : List Char} {v : α}
    (h : m l = some v) : scan m l = some v := by
  cases l with
  | nil => simpa [scan] using h
  | cons c rest => simp [scan, h]

theorem scan_append {m : List Char → Option α} (pre rest : List Char)
    (h : ∀ s ∈ pre.tails, s ≠ [] → m (s ++ rest) = none) :
    scan m (pre ++ rest) = scan m rest := by
  induction pre with
  | nil => rfl
  | cons c pre ih =>
    have hc : m (c :: (pre ++ rest)) = none := by
      have := h (c :: pre) (by simp) (by simp)
      simpa using this
    have hrec : ∀ s ∈ pre.tails, s ≠ [] → m (s ++ rest) = none := by
      intro s hs hne
      refine h s ?_ hne
      have hsuf : s <:+ pre := (List.mem_tails _ _).1 hs
      exact (List.mem_tails _ _).2 (hsuf.trans (List.suffix_cons c pre))
    simpa [scan, hc] using ih hrec

theorem scan_eq_none_iff (m : List Char → Option α) (l : List Char) :
    scan m l = none ↔ ∀ s ∈ l.tails, m s = none := by
  induction l with
  | nil => simp [scan]
  | cons c rest ih =>
    constructor
    · intro h s hs
      have hc : m (c :: rest) = none := by
        cases hm : m (c :: rest) with
        | none => rfl
        | some v => simp [scan, hm] at h
      have hsuf : s <:+ c :: rest := (List.mem_tails _ _).1 hs
      rcases List.suffix_cons_iff.1 hsuf with h1 | h2
      · simpa [h1] using hc
      · have : scan m rest = none := by simpa [scan, hc] using h
        exact ih.1 this s ((List.mem_tails _ _).2 h2)
    · intro h
      have hc : m (c :: rest) = none := h (c :: rest) (by simp)
      have : scan m rest = none := by
        refine ih.2 ?_
        intro s hs
        refine h s ?_
        have hsuf : s <:+ rest := (List.mem_tails _ _).1 hs
        exact (List.mem_tails _ _).2 (hsuf.trans (List.suffix_cons c rest))
      simp [scan, hc, this]

/-! ## Claim C1 -/

/-- C1: for every group of values with count `n ≥ 2`, the day-average
aggregators report `SEM = SD / sqrt n` — `write_per_file_day_averages`
(`compute_group_day_averages.py` lines 46-54, first conjunct) and
`create_day_averages` (`Intermittent Data/create_day_averages.py` lines
41-49, second conjunct) — and the latter reports the 95% confidence-interval
margin as `1.96 * SEM` (third conjunct).  `sqrt` is an arbitrary
interpretation of the square root used by the scripts. -/
theorem C1_day_average_sem_and_ci (sqrt : ℚ → ℚ) (d : Nat) (vals : List ℚ)
    (h : 2 ≤ vals.length) :
    semOfGroup sqrt vals = sdOfGroup sqrt vals / sqrt (vals.length : ℚ) ∧
    (dayStatsRow sqrt d vals).stdErrorCells =
      ((dayStatsRow sqrt d vals).stdDevCells).map
        (fun sd => sd / sqrt (vals.length : ℚ)) ∧
    (dayStatsRow sqrt d vals).ciMarginCells =
      ((dayStatsRow sqrt d vals).stdErrorCells).map
        (fun s => (196 / 100 : ℚ) * s) := by
  have h0 : 0 < vals.length := lt_of_lt_of_le (by norm_num) h
  refine ⟨?_, ?_, ?_⟩
  · simp [semOfGroup, sdOfGroup, h, h0]
  · simp [dayStatsRow, pandasSem, pandasStd, h]
  · simp [dayStatsRow]

/-- Witness for C1 at the concrete group `[10, 12]` (and `sqrt := id`). -/
theorem C1_witness :
    2 ≤ ([10, 12] : List ℚ).length ∧
    (semOfGroup id [10, 12] = sdOfGroup id [10, 12] / id ((2 : Nat) : ℚ) ∧
     (dayStatsRow id 5 [10, 12]).stdErrorCells =
       ((dayStatsRow id 5 [10, 12]).stdDevCells).map
         (fun sd => sd / id ((2 : Nat) : ℚ)) ∧
     (dayStatsRow id 5 [10, 12]).ciMarginCells =
       ((dayStatsRow id 5 [10, 12]).stdErrorCells).map
         (fun s => (196 / 100 : ℚ) * s)) :=
  ⟨by decide, C1_day_average_sem_and_ci id 5 [10, 12] (by decide)⟩

/-! ## Claim C2 -/

/-- C2 is false as stated: the pandas-based aggregation scripts do not report
`SD = 0.0` for a group with a single value.  Concretely,
`create_sample_averages` applied to the single row
`("A2780_Day1_FITC_Tile-0_C4.tif", 5)` produces the well group `C4` with
`n = 1` and `StdDev_Cells = NaN` (`none`), which is not `0.0`. -/
theorem C2_counterexample :
    create_sample_averages id [("A2780_Day1_FITC_Tile-0_C4.tif", 5)] =
      [{ well := "C4", averageCells := 5, stdDevCells := none,
         totalMeasurements := 1, minCells := 5, maxCells := 5 }] ∧
    (none : Option ℚ) ≠ some 0 := by
  exact ⟨by with_unfolding_all rfl, by decide⟩

/-! ## Lemmas about process_area_data.py -/

theorem findColIdx_eq_none_iff (name : String) (cols : List String) :
    findColIdx name cols = none ↔ name ∉ cols := by
  induction cols with
  | nil => simp [findColIdx]
  | cons c cs ih =>
    by_cases hc : c = name
    · simp [findColIdx, hc]
    · simp [findColIdx, hc, ih, Ne.symm hc]

theorem findColIdx_get {name : String} {cols : List String} {i : Nat}
    (h : findColIdx name cols = some i) : cols[i]? = some name := by
  induction cols generalizing i with
  | nil => simp [findColIdx] at h
  | cons c cs ih =>
    by_cases hc : c = name
    · simp [findColIdx, hc] at h
      simp [← h, hc]
    · simp [findColIdx, hc] at h
      rcases h with ⟨j, hj, hij⟩
      subst hij
      simpa using ih hj

theorem divideRows_of_num {i : Nat} {rows : List (List Cell)}
    (h : ∀ r ∈ rows, ∃ q : ℚ, r[i]? = some (.num q)) :
    divideRows i rows = some (rows.map fun r =>
      match r[i]? with
      | some (.num q) => r.set i (.num (q / 144))
      | _ => r) := by
  induction rows with
  | nil => rfl
  | cons r rs ih =>
    obtain ⟨q, hq⟩ := h r (by simp)
    have hrest : ∀ r ∈ rs, ∃ q : ℚ, r[i]? = some (.num q) := fun r hr =>
      h r (by simp [hr])
    simp [divideRows, hq, ih hrest]

/-! ## Claim C5 -/

/-- C5: if the frame has an `Area µm^2` column (index `i`), all of whose
cells are numeric, and a row `j` holds `288` there, then `process_csv_file`
writes a frame whose column `i` is named `Cells` and holds exactly `2` in row
`j`, and no column of the output is named `Area µm^2`. -/
theorem C5_area_288_normalizes_to_2 (f : Frame) (i j : Nat) (r : List Cell)
    (hi : findColIdx "Area µm^2" f.cols = some i)
    (hnum : ∀ r ∈ f.rows, ∃ q : ℚ, r[i]? = some (.num q))
    (hj : f.rows[j]? = some r)
    (hc : r[i]? = some (.num 288)) :
    ∃ g, process_csv_file f = .written g ∧
      g.cols[i]? = some "Cells" ∧
      "Area µm^2" ∉ g.cols ∧
      ∃ r2, g.rows[j]? = some r2 ∧ r2[i]? = some (.num 2) := by
  have hproc : process_csv_file f = .written
      ⟨f.cols.map renameAreaCol,
       f.rows.map fun r =>
         match r[i]? with
         | some (Cell.num q) => r.set i (Cell.num (q / 144))
         | _ => r⟩ := by
    simp [process_csv_file, hi, divideRows_of_num hnum]
  refine ⟨_, hproc, ?_, ?_, ?_⟩
  · have := findColIdx_get hi
    simp [List.getElem?_map, this, renameAreaCol]
  · intro hmem
    rcases List.mem_map.1 hmem with ⟨c, _, hcren⟩
    by_cases hce : c = "Area µm^2" <;> simp [renameAreaCol, hce] at hcren
  · refine ⟨r.set i (Cell.num ((288 : ℚ) / 144)), ?_, ?_⟩
    · simp [List.getElem?_map, hj, hc]
    · have hlt : i < r.length := (List.getElem?_eq_some_iff.1 hc).1
      have h288 : (288 : ℚ) / 144 = 2 := by norm_num
      simp [List.getElem?_set_self hlt, h288]

/-- Witness for C5 at a concrete one-row frame. -/
theorem C5_witness :
    ∃ g, process_csv_file
        ⟨["Image", "Area µm^2"], [[.str "x", .num 288]]⟩ = .written g ∧
      g.cols[1]? = some "Cells" ∧
      "Area µm^2" ∉ g.cols ∧
      ∃ r2, g.rows[0]? = some r2 ∧ r2[1]? = some (.num 2) :=
  C5_area_288_normalizes_to_2 ⟨["Image", "Area µm^2"], [[.str "x", .num 288]]⟩
    1 0 [.str "x", .num 288] (by decide)
    (by
      intro r hr
      simp only [List.mem_singleton] at hr
      subst hr
      exact ⟨288, rfl⟩)
    rfl rfl

/-! ## Claim C6 -/

/-- C6: a frame without the `Area µm^2` column takes the warning branch
(`missingColumn`, lines 35-37: warning printed, early `return False`, not the
exception branch), writes no output, and the batch loop of `main` processes
the remaining files exactly as if the failing file were absent, adding one to
the failure count. -/
theorem C6_missing_column_skipped (f : Frame) (pre post : List Frame)
    (h : "Area µm^2" ∉ f.cols) :
    process_csv_file f = .missingColumn ∧
    procOk (process_csv_file f) = false ∧
    writtenFrame (process_csv_file f) = none ∧
    processAll (pre ++ f :: post) =
      ((processAll (pre ++ post)).1, (processAll (pre ++ post)).2 + 1) := by
  have hidx : findColIdx "Area µm^2" f.cols = none :=
    (findColIdx_eq_none_iff _ _).2 h
  have hout : process_csv_file f = .missingColumn := by
    simp [process_csv_file, hidx]
  have hcount : ∀ (l : List Frame) (s fl : Nat),
      l.foldl
        (fun acc g =>
          if procOk (process_csv_file g) then (acc.1 + 1, acc.2) else (acc.1, acc.2 + 1))
        (s, fl) =
      (s + (l.countP fun g => procOk (process_csv_file g)),
       fl + (l.countP fun g => !procOk (process_csv_file g))) := by
    intro l
    induction l with
    | nil => simp
    | cons g gs ih =>
      intro s fl
      by_cases hg : procOk (process_csv_file g) <;>
        simp [List.countP_cons, hg, ih, Nat.add_assoc, Nat.add_comm 1]
  refine ⟨hout, by simp [hout, procOk], by simp [hout, writtenFrame], ?_⟩
  have hofff : procOk (process_csv_file f) = false := by simp [hout, procOk]
  have h1 := hcount (pre ++ f :: post) 0 0
  have h2 := hcount (pre ++ post) 0 0
  unfold processAll
  rw [h1, h2]
  simp [List.countP_append, List.countP_cons, hofff]
  omega

/-- Witness for C6: a concrete frame lacking the column, between two frames
that do have it. -/
theorem C6_witness :
    process_csv_file ⟨["Image", "Cells"], []⟩ = .missingColumn ∧
    procOk (process_csv_file ⟨["Image", "Cells"], []⟩) = false ∧
    writtenFrame (process_csv_file ⟨["Image", "Cells"], []⟩) = none ∧
    processAll
        [⟨["Area µm^2"], []⟩, ⟨["Image", "Cells"], []⟩, ⟨["Area µm^2"], []⟩] =
      ((processAll [⟨["Area µm^2"], []⟩, ⟨["Area µm^2"], []⟩]).1,
       (processAll [⟨["Area µm^2"], []⟩, ⟨["Area µm^2"], []⟩]).2 + 1) :=
  C6_missing_column_skipped ⟨["Image", "Cells"], []⟩
    [⟨["Area µm^2"], []⟩] [⟨["Area µm^2"], []⟩] (by decide)

/-- C2 amended: for a group with exactly one value, the `statistics`-based
untreated-monoculture scripts (`per_day_sample_stats`,
`write_per_file_day_averages`) report both SD and SEM as `0.0`, while the
pandas-based Intermittent-Data scripts (`create_sample_averages`,
`create_day_averages`) report SD (and SEM where it is reported) as NaN. -/
theorem C2_amended_singleton_sd_sem (sqrt : ℚ → ℚ) (v : ℚ) (d : Nat) :
    sdOfGroup sqrt [v] = 0 ∧ semOfGroup sqrt [v] = 0 ∧
    pandasStd sqrt [v] = none ∧ pandasSem sqrt [v] = none ∧
    (dayStatsRow sqrt d [v]).stdDevCells = none ∧
    (dayStatsRow sqrt d [v]).stdErrorCells = none := by
  refine ⟨?_, ?_, ?_, ?_, ?_, ?_⟩ <;>
    simp [sdOfGroup, semOfGroup, pandasStd, pandasSem, dayStatsRow]

/-! ## Claim C8 -/

/-- C8: `rewrite_csv_headers` changes only the header row: whenever it
rewrites a file, every data row after the header is written back unchanged
and in the same order (first conjunct); and when no header name appears in
the rename table, the file is not rewritten at all (second conjunct). -/
theorem C8_rewrite_headers_frame :
    (∀ rows out, rewrite_csv_headers rows = some out → out.drop 1 = rows.drop 1) ∧
    (∀ rows : List (List String),
      (∀ hd ∈ rows.headD [], hd ∉ RENAMES.map Prod.fst) →
      rewrite_csv_headers rows = none) := by
  constructor
  · intro rows out hrw
    match rows with
    | [] => simp [rewrite_csv_headers] at hrw
    | header :: rest =>
      simp only [rewrite_csv_headers] at hrw
      by_cases hch : header.map renameHeader = header
      · simp [hch] at hrw
      · simp only [if_neg hch, Option.some.injEq] at hrw
        simp [← hrw]
  · intro rows hnone
    match rows with
    | [] => rfl
    | header :: rest =>
      have hmap : header.map renameHeader = header := by
        have hfix : ∀ hd ∈ header, renameHeader hd = hd := by
          intro hd hmem
          have hfind : (RENAMES.find? fun p => p.1 == hd) = none := by
            rw [List.find?_eq_none]
            intro p hp hbeq
            have hpe : p.1 = hd := by simpa using hbeq
            exact hnone hd (by simpa using hmem) (List.mem_map.2 ⟨p, hp, hpe⟩)
          simp [renameHeader, hfind]
        calc header.map renameHeader = header.map id := List.map_congr_left hfix
          _ = header := List.map_id header
      simp [rewrite_csv_headers, hmap]

/-- Witness for C8: a file whose header contains `Area µm^2` keeps its data
rows verbatim, and a file whose header names are outside the table is left
alone. -/
theorem C8_witness :
    ([["Cells", "B"], ["1", "2"]] : List (List String)).drop 1 =
      ([["Area µm^2", "B"], ["1", "2"]] : List (List String)).drop 1 ∧
    rewrite_csv_headers [["Image", "Cells"], ["1", "2"]] = none :=
  ⟨C8_rewrite_headers_frame.1 [["Area µm^2", "B"], ["1", "2"]]
      [["Cells", "B"], ["1", "2"]] (by decide),
   C8_rewrite_headers_frame.2 [["Image", "Cells"], ["1", "2"]] (by decide)⟩

/-! ## Order lemmas for the Python string comparison -/

theorem lexLe_trans {a b c : List Char} (hab : lexLe a b = true)
    (hbc : lexLe b c = true) : lexLe a c = true := by
  induction a generalizing b c with
  | nil => rfl
  | cons x xs ih =>
    cases b with
    | nil => simp [lexLe] at hab
    | cons y ys =>
      cases c with
      | nil => simp [lexLe] at hbc
      | cons z zs =>
        simp only [lexLe] at hab hbc ⊢
        by_cases hxy : x < y
        · by_cases hyz : y < z
          · simp [lt_trans hxy hyz]
          · by_cases hzy : z < y
            · simp [hyz, hzy] at hbc
            · have hyz2 : y = z := le_antisymm (not_lt.1 hzy) (not_lt.1 hyz)
              subst hyz2
              simp [hxy]
        · by_cases hyx : y < x
          · simp [hxy, hyx] at hab
          · have hxy2 : x = y := le_antisymm (not_lt.1 hyx) (not_lt.1 hxy)
            subst hxy2
            simp only [if_neg hxy, lt_irrefl, if_false] at hab
            by_cases hxz : x < z
            · simp [hxz]
            · by_cases hzx : z < x
              · simp [hxz, hzx] at hbc
              · have hxz2 : x = z := le_antisymm (not_lt.1 hzx) (not_lt.1 hxz)
                subst hxz2
                simp only [lt_irrefl, if_false] at hbc ⊢
                exact ih hab hbc

theorem lexLe_total (a b : List Char) : lexLe a b = true ∨ lexLe b a = true := by
  induction a generalizing b with
  | nil => left; rfl
  | cons x xs ih =>
    cases b with
    | nil => right; rfl
    | cons y ys =>
      by_cases hxy : x < y
      · left; simp [lexLe, hxy]
      · by_cases hyx : y < x
        · right; simp [lexLe, hyx]
        · have hxy2 : x = y := le_antisymm (not_lt.1 hyx) (not_lt.1 hxy)
          subst hxy2
          rcases ih ys with h | h
          · left; simp [lexLe, h]
          · right; simp [lexLe, h]

/-! ## Splitting helpers -/

theorem filter_append_perm_or (l : List α) (p q : α → Bool)
    (h : ∀ a ∈ l, ¬(p a = true ∧ q a = true)) :
    (l.filter p ++ l.filter q).Perm (l.filter fun a => p a || q a) := by
  induction l with
  | nil => simp
  | cons a t ih =>
    have hrest : ∀ x ∈ t, ¬(p x = true ∧ q x = true) := fun x hx =>
      h x (by simp [hx])
    by_cases hp : p a = true
    · have hq : ¬q a = true := fun hq => h a (by simp) ⟨hp, hq⟩
      simpa [List.filter_cons, hp, hq] using (ih hrest).cons a
    · by_cases hq : q a = true
      · have hmid : (t.filter p ++ a :: t.filter q).Perm
            (a :: (t.filter p ++ t.filter q)) := List.perm_middle
        simpa [List.filter_cons, hp, hq] using hmid.trans ((ih hrest).cons a)
      · simpa [List.filter_cons, hp, hq] using ih hrest

theorem wellIn_exclusive {w20 w30 : List String}
    (hdisj : ∀ w, w ∈ w20 → w ∉ w30) (r : SRow) :
    ¬(wellIn w20 r = true ∧ wellIn w30 r = true) := by
  rintro ⟨h1, h2⟩
  unfold wellIn at h1 h2
  cases hx : extract_well_from_filename r.image with
  | none => rw [hx] at h1; simp at h1
  | some w =>
    rw [hx] at h1 h2
    exact hdisj w (by simpa using h1) (by simpa using h2)

theorem classify_image_mem {s : String} {k : String × String}
    (h : classify_image s = some k) : k ∈ bucketKeys := by
  unfold classify_image at h
  cases hse : searchWellEnd s.data with
  | none => rw [hse] at h; simp at h
  | some rc =>
    rw [hse] at h
    obtain ⟨r, c⟩ := rc
    simp only [Option.some.injEq] at h
    subst h
    by_cases h1 : r.toUpper = 'A' <;>
      by_cases h2 : (c = '1' ∨ c = '2' ∨ c = '3') <;>
        simp [bucketKeys, h1, h2]

theorem bucket_pred_exclusive {k1 k2 : String × String} (hne : k1 ≠ k2)
    (r : List String) :
    ¬(decide (classify_image (r.headD "") = some k1) = true ∧
      decide (classify_image (r.headD "") = some k2) = true) := by
  rintro ⟨h1, h2⟩
  rw [decide_eq_true_eq] at h1 h2
  rw [h1] at h2
  exact hne (Option.some.inj h2)

theorem classify_or_four (r : List String) :
    ((decide (classify_image (r.headD "") = some ("20k", "A2780Naive")) ||
      decide (classify_image (r.headD "") = some ("20k", "A2780cis"))) ||
     (decide (classify_image (r.headD "") = some ("30k", "A2780Naive")) ||
      decide (classify_image (r.headD "") = some ("30k", "A2780cis")))) =
    (classify_image (r.headD "")).isSome := by
  cases hcl : classify_image (r.headD "") with
  | none => simp
  | some k =>
    have hk := classify_image_mem hcl
    simp only [bucketKeys, List.mem_cons, List.not_mem_nil, or_false] at hk
    rcases hk with h | h | h | h <;> simp [h]

/-! ## Claim C3 -/

/-- C3: splitting and re-concatenating loses and duplicates nothing.  First
conjunct: `split_csv_by_wells` — for disjoint well lists (as all four
configurations in `file_well_mapping` are), the 20k and 30k output files
together hold exactly the multiset of input rows whose extracted well is in
the mapping.  Second conjunct: `split_csvs` — when every data row has the
header's width (a well-formed CSV), the four output files together hold
exactly the multiset of data rows whose image classifies to some bucket. -/
theorem C3_split_and_rejoin :
    (∀ (rows : List SRow) (w20 w30 : List String),
      (∀ w, w ∈ w20 → w ∉ w30) →
      (((split_csv_by_wells rows w20 w30).1 ++ (split_csv_by_wells rows w20 w30).2 :
          List SRow) : Multiset SRow) =
        ↑(rows.filter fun r => wellIn w20 r || wellIn w30 r)) ∧
    (∀ (files : List (List (List String))) (hdr : List String)
        (b1 b2 b3 b4 : List (List String)),
      split_csvs files = some (hdr, (b1, b2, b3, b4)) →
      (∀ r ∈ dataRows files, rowKeep hdr.length r = true) →
      ((b1 ++ b2 ++ b3 ++ b4 : List (List String)) : Multiset (List String)) =
        ↑((dataRows files).filter fun r => (classify_image (r.headD "")).isSome)) := by
  constructor
  · intro rows w20 w30 hdisj
    exact Multiset.coe_eq_coe.2
      (filter_append_perm_or rows _ _ fun r _ => wellIn_exclusive hdisj r)
  · intro files hdr b1 b2 b3 b4 hsplit hwf
    unfold split_csvs at hsplit
    cases hch : canonicalHeader files with
    | none => rw [hch] at hsplit; simp at hsplit
    | some hdr0 =>
      rw [hch] at hsplit
      simp only [Option.some.injEq, Prod.mk.injEq] at hsplit
      obtain ⟨rfl, rfl, rfl, rfl, rfl⟩ := hsplit
      have hkept : (dataRows files).filter (rowKeep hdr0.length) = dataRows files :=
        List.filter_eq_self.2 hwf
      unfold bucketRows
      rw [hkept]
      apply Multiset.coe_eq_coe.2
      rw [List.append_assoc (_ ++ _)]
      have hp12 :
          ((List.insertionSort rowLe ((dataRows files).filter fun r =>
              decide (classify_image (r.headD "") = some ("20k", "A2780Naive"))) ++
            List.insertionSort rowLe ((dataRows files).filter fun r =>
              decide (classify_image (r.headD "") = some ("20k", "A2780cis"))))).Perm
            ((dataRows files).filter fun r =>
              decide (classify_image (r.headD "") = some ("20k", "A2780Naive")) ||
              decide (classify_image (r.headD "") = some ("20k", "A2780cis"))) :=
        ((List.perm_insertionSort rowLe _).append
          (List.perm_insertionSort rowLe _)).trans
          (filter_append_perm_or _ _ _ fun r _ =>
            bucket_pred_exclusive (by decide) r)
      have hp34 :
          ((List.insertionSort rowLe ((dataRows files).filter fun r =>
              decide (classify_image (r.headD "") = some ("30k", "A2780Naive"))) ++
            List.insertionSort rowLe ((dataRows files).filter fun r =>
              decide (classify_image (r.headD "") = some ("30k", "A2780cis"))))).Perm
            ((dataRows files).filter fun r =>
              decide (classify_image (r.headD "") = some ("30k", "A2780Naive")) ||
              decide (classify_image (r.headD "") = some ("30k", "A2780cis"))) :=
        ((List.perm_insertionSort rowLe _).append
          (List.perm_insertionSort rowLe _)).trans
          (filter_append_perm_or _ _ _ fun r _ =>
            bucket_pred_exclusive (by decide) r)
      refine ((hp12.append hp34).trans
        ((filter_append_perm_or _ _ _ fun r _ => ?_).trans ?_))
      · rintro ⟨h12, h34⟩
        simp only [Bool.or_eq_true] at h12 h34
        rcases h12 with h | h <;> rcases h34 with h2 | h2 <;>
          exact bucket_pred_exclusive (by decide) r ⟨h, h2⟩
      · rw [List.filter_congr fun r _ => classify_or_four r]

/-- Witness for C3: a concrete split with the `A2780cisT.csv` well
configuration, and a concrete one-file input for `split_csvs`. -/
theorem C3_witness :
    (((split_csv_by_wells
          [⟨"a_C4.tif", ["1"]⟩, ⟨"a_D5.tif", ["2"]⟩, ⟨"a_E1.tif", ["3"]⟩]
          ["C4", "C5", "C6"] ["D4", "D5", "D6"]).1 ++
       (split_csv_by_wells
          [⟨"a_C4.tif", ["1"]⟩, ⟨"a_D5.tif", ["2"]⟩, ⟨"a_E1.tif", ["3"]⟩]
          ["C4", "C5", "C6"] ["D4", "D5", "D6"]).2 : List SRow) : Multiset SRow) =
      ↑([⟨"a_C4.tif", ["1"]⟩, ⟨"a_D5.tif", ["2"]⟩, ⟨"a_E1.tif", ["3"]⟩].filter
          fun r => wellIn ["C4", "C5", "C6"] r || wellIn ["D4", "D5", "D6"] r) ∧
    ((([["x_A1.tif", "7"], ["x_A2.tif", "3"]] ++ [] ++ [] ++
        [["x_B5.tif", "2"]] : List (List String))) : Multiset (List String)) =
      ↑((dataRows [[["Image", "Cells"], ["x_A2.tif", "3"], ["x_A1.tif", "7"],
            ["x_B5.tif", "2"]]]).filter
          fun r => (classify_image (r.headD "")).isSome) :=
  ⟨C3_split_and_rejoin.1
      [⟨"a_C4.tif", ["1"]⟩, ⟨"a_D5.tif", ["2"]⟩, ⟨"a_E1.tif", ["3"]⟩]
      ["C4", "C5", "C6"] ["D4", "D5", "D6"] (by decide),
   C3_split_and_rejoin.2
      [[["Image", "Cells"], ["x_A2.tif", "3"], ["x_A1.tif", "7"], ["x_B5.tif", "2"]]]
      ["Image", "Cells"]
      [["x_A1.tif", "7"], ["x_A2.tif", "3"]] [] [] [["x_B5.tif", "2"]]
      (by decide) (by decide)⟩

/-! ## Claim C9 -/

/-- C9: each of the four per-group files written by `split_csvs` has its
data rows sorted in nondecreasing order of the `Image` field (the first
cell), under the Python string order. -/
theorem C9_split_outputs_sorted (files : List (List (List String)))
    (hdr : List String) (b1 b2 b3 b4 : List (List String))
    (hsplit : split_csvs files = some (hdr, (b1, b2, b3, b4))) :
    b1.Sorted rowLe ∧ b2.Sorted rowLe ∧ b3.Sorted rowLe ∧ b4.Sorted rowLe := by
  haveI : IsTotal (List String) rowLe := ⟨fun a b => lexLe_total _ _⟩
  haveI : IsTrans (List String) rowLe := ⟨fun a b c => lexLe_trans⟩
  unfold split_csvs at hsplit
  cases hch : canonicalHeader files with
  | none => rw [hch] at hsplit; simp at hsplit
  | some hdr0 =>
    rw [hch] at hsplit
    simp only [Option.some.injEq, Prod.mk.injEq] at hsplit
    obtain ⟨rfl, rfl, rfl, rfl, rfl⟩ := hsplit
    exact ⟨List.sorted_insertionSort rowLe _, List.sorted_insertionSort rowLe _,
      List.sorted_insertionSort rowLe _, List.sorted_insertionSort rowLe _⟩

/-- Witness for C9 at a concrete one-file input. -/
theorem C9_witness :
    ([["y_A1.tif", "7"], ["y_A2.tif", "3"]] : List (List String)).Sorted rowLe ∧
    ([] : List (List String)).Sorted rowLe ∧
    ([] : List (List String)).Sorted rowLe ∧
    ([["y_B5.tif", "2"]] : List (List String)).Sorted rowLe :=
  C9_split_outputs_sorted
    [[["Image", "Cells"], ["y_A2.tif", "3"], ["y_A1.tif", "7"], ["y_B5.tif", "2"]]]
    ["Image", "Cells"]
    [["y_A1.tif", "7"], ["y_A2.tif", "3"]] [] [] [["y_B5.tif", "2"]]
    (by decide)

/-! ## Lemmas about the anchored well pattern -/

theorem matchWellEnd_append (pre : List Char) (r c t i f : Char)
    (hr : r = 'A' ∨ r = 'a' ∨ r = 'B' ∨ r = 'b') (hc : '1' ≤ c ∧ c ≤ '6')
    (ht : t = 't' ∨ t = 'T') (hi : i = 'i' ∨ i = 'I') (hf : f = 'f' ∨ f = 'F') :
    matchWellEnd (pre ++ ['_', r, c, '.', t, i, f]) = some (r, c) := by
  unfold matchWellEnd
  have hrev : (pre ++ ['_', r, c, '.', t, i, f]).reverse =
      f :: i :: t :: '.' :: c :: r :: '_' :: pre.reverse := by
    simp
  rw [hrev]
  show (if (f = 'f' ∨ f = 'F') ∧ (i = 'i' ∨ i = 'I') ∧ (t = 't' ∨ t = 'T') ∧
      ('.' : Char) = '.' ∧ ('1' ≤ c ∧ c ≤ '6') ∧
      (r = 'A' ∨ r = 'a' ∨ r = 'B' ∨ r = 'b') ∧ ('_' : Char) = '_' then
    some (r, c) else none) = some (r, c)
  rw [if_pos ⟨hf, hi, ht, rfl, hc, hr, rfl⟩]

theorem matchWellEnd_concat_ne {l : List Char} {x : Char}
    (hx : ¬(x = 'f' ∨ x = 'F')) : matchWellEnd (l ++ [x]) = none := by
  unfold matchWellEnd
  have hrev : (l ++ [x]).reverse = x :: l.reverse := by simp
  rw [hrev]
  rcases l.reverse with _ | ⟨a, _ | ⟨b, _ | ⟨d, _ | ⟨e, _ | ⟨g, _ | ⟨u, rest⟩⟩⟩⟩⟩⟩ <;>
    first
      | rfl
      | (show (if (x = 'f' ∨ x = 'F') ∧ (a = 'i' ∨ a = 'I') ∧ (b = 't' ∨ b = 'T') ∧
            d = '.' ∧ ('1' ≤ e ∧ e ≤ '6') ∧ (g = 'A' ∨ g = 'a' ∨ g = 'B' ∨ g = 'b') ∧
            u = '_' then some (g, e) else none) = none
         rw [if_neg]
         rintro ⟨h1, -⟩
         exact hx h1)

theorem matchWellEnd_some_decomp {l : List Char} {r c : Char}
    (h : matchWellEnd l = some (r, c)) :
    ∃ pre t i f, (r = 'A' ∨ r = 'a' ∨ r = 'B' ∨ r = 'b') ∧ ('1' ≤ c ∧ c ≤ '6') ∧
      (t = 't' ∨ t = 'T') ∧ (i = 'i' ∨ i = 'I') ∧ (f = 'f' ∨ f = 'F') ∧
      l = pre ++ ['_', r, c, '.', t, i, f] := by
  unfold matchWellEnd at h
  rcases hrev : l.reverse with _ | ⟨f0, _ | ⟨i0, _ | ⟨t0, _ | ⟨d0, _ | ⟨c0, _ |
      ⟨r0, _ | ⟨u0, rest⟩⟩⟩⟩⟩⟩⟩ <;> rw [hrev] at h <;>
    first
      | exact Option.noConfusion h
      | skip
  replace h : (if (f0 = 'f' ∨ f0 = 'F') ∧ (i0 = 'i' ∨ i0 = 'I') ∧
      (t0 = 't' ∨ t0 = 'T') ∧ d0 = '.' ∧ ('1' ≤ c0 ∧ c0 ≤ '6') ∧
      (r0 = 'A' ∨ r0 = 'a' ∨ r0 = 'B' ∨ r0 = 'b') ∧ u0 = '_' then
    some (r0, c0) else none) = some (r, c) := h
  rw [ite_eq_iff] at h
  rcases h with ⟨⟨hf, hi, ht, hd, hc0, hr0, hu⟩, hsome⟩ | ⟨-, hnone⟩
  · have hrc := Option.some.inj hsome
    have hr1 : r0 = r := congrArg Prod.fst hrc
    have hc1 : c0 = c := congrArg Prod.snd hrc
    subst hr1 hc1 hd hu
    refine ⟨rest.reverse, t0, i0, f0, hr0, hc0, ht, hi, hf, ?_⟩
    have hl : l = l.reverse.reverse := (List.reverse_reverse l).symm
    rw [hl, hrev]
    simp
  · exact absurd hnone (by simp)

/-! ## Claim C10 -/

/-- C10 is false as stated: because `$` in `WELL_RE` also matches just
before a newline at the end of the string, the filename `"x_A1.tif\n"` does
not end in `_A1.tif` and yet `classify_image` assigns it to the
`(20k, A2780Naive)` bucket instead of none. -/
theorem C10_counterexample :
    classify_image "x_A1.tif\n" = some ("20k", "A2780Naive") ∧
    endsInWellTif "x_A1.tif\n" = false :=
  ⟨by with_unfolding_all rfl, by with_unfolding_all rfl⟩

/-- C10 amended: every filename ending in `_<A-or-B><1-6>.tif`
(case-insensitive) — or in that pattern followed by a single trailing
newline, which `$` also accepts — is assigned to exactly one bucket, row
`A`/`a` to `20k`, `B`/`b` to `30k`, columns `1-3` to `A2780Naive`, `4-6` to
`A2780cis`; every other filename is assigned to none (third conjunct, whose
hypotheses say precisely that neither the string nor, when it ends in a
newline, the string without it, ends in the pattern — `matchWellEnd` being
exactly the ends-in-pattern test by `matchWellEnd_some_decomp` and
`matchWellEnd_append`). -/
theorem C10_amended_classifier_partition :
    (∀ (pre : List Char) (r c t i f : Char),
      (r = 'A' ∨ r = 'a' ∨ r = 'B' ∨ r = 'b') → ('1' ≤ c ∧ c ≤ '6') →
      (t = 't' ∨ t = 'T') → (i = 'i' ∨ i = 'I') → (f = 'f' ∨ f = 'F') →
      classify_image (String.mk (pre ++ ['_', r, c, '.', t, i, f])) =
        some (if r = 'A' ∨ r = 'a' then "20k" else "30k",
              if c = '1' ∨ c = '2' ∨ c = '3' then "A2780Naive" else "A2780cis") ∧
      classify_image (String.mk (pre ++ ['_', r, c, '.', t, i, f] ++ ['\n'])) =
        some (if r = 'A' ∨ r = 'a' then "20k" else "30k",
              if c = '1' ∨ c = '2' ∨ c = '3' then "A2780Naive" else "A2780cis")) ∧
    (∀ name : String, matchWellEnd name.data = none →
      (name.data.getLast? = some '\n' → matchWellEnd name.data.dropLast = none) →
      classify_image name = none) := by
  constructor
  · intro pre r c t i f hr hc ht hi hf
    have hm := matchWellEnd_append pre r c t i f hr hc ht hi hf
    have hm2 : matchWellEnd ((pre ++ ['_', r, c, '.', t, i, f]) ++ ['\n']) = none :=
      matchWellEnd_concat_ne (by decide)
    constructor
    · have hse : searchWellEnd (String.mk (pre ++ ['_', r, c, '.', t, i, f])).data =
          some (r, c) := by
        unfold searchWellEnd
        rw [show (String.mk (pre ++ ['_', r, c, '.', t, i, f])).data =
            pre ++ ['_', r, c, '.', t, i, f] from rfl, hm]
      unfold classify_image
      rw [hse]
      rcases hr with rfl | rfl | rfl | rfl <;> simp
    · have hse : searchWellEnd
          (String.mk (pre ++ ['_', r, c, '.', t, i, f] ++ ['\n'])).data =
          some (r, c) := by
        unfold searchWellEnd
        rw [show (String.mk (pre ++ ['_', r, c, '.', t, i, f] ++ ['\n'])).data =
            (pre ++ ['_', r, c, '.', t, i, f]) ++ ['\n'] from by simp, hm2]
        rw [List.getLast?_concat]
        rw [if_pos rfl, List.dropLast_concat, hm]
      unfold classify_image
      rw [hse]
      rcases hr with rfl | rfl | rfl | rfl <;> simp
  · intro name hm hnl
    unfold classify_image searchWellEnd
    rw [hm]
    by_cases hlast : name.data.getLast? = some '\n'
    · rw [if_pos hlast, hnl hlast]
    · rw [if_neg hlast]

/-- Witness for C10 (amended): the classifier on `"x_A1.tif"`, on
`"x_A1.tif\n"`, and on the non-matching `"hello.png"`. -/
theorem C10_witness :
    (classify_image (String.mk (['x'] ++ ['_', 'A', '1', '.', 't', 'i', 'f'])) =
      some (if 'A' = 'A' ∨ 'A' = 'a' then "20k" else "30k",
            if '1' = '1' ∨ '1' = '2' ∨ '1' = '3' then "A2780Naive" else "A2780cis") ∧
     classify_image (String.mk (['x'] ++ ['_', 'A', '1', '.', 't', 'i', 'f'] ++ ['\n'])) =
      some (if 'A' = 'A' ∨ 'A' = 'a' then "20k" else "30k",
            if '1' = '1' ∨ '1' = '2' ∨ '1' = '3' then "A2780Naive" else "A2780cis")) ∧
    classify_image "hello.png" = none :=
  ⟨C10_amended_classifier_partition.1 ['x'] 'A' '1' 't' 'i' 'f'
      (by decide) (by decide) (by decide) (by decide) (by decide),
   C10_amended_classifier_partition.2 "hello.png" (by decide) (by decide)⟩

/-! ## Claim C4 -/

theorem takeDigits_append {ds post : List Char} (hd : ∀ ch ∈ ds, ch.isDigit = true)
    (hp : ∀ ch, post.head? = some ch → ch.isDigit = false) :
    takeDigits (ds ++ post) = (ds, post) := by
  induction ds with
  | nil =>
    cases post with
    | nil => rfl
    | cons c rest => simp [takeDigits, hp c rfl]
  | cons d ds ih =>
    have hdd : d.isDigit = true := hd d (by simp)
    have hrest : ∀ ch ∈ ds, ch.isDigit = true := fun ch hch => hd ch (by simp [hch])
    simp [takeDigits, hdd, ih hrest]

/-- C4: the filename parsers extract exactly the encoded values and drop the
rest.  (1)-(3): `parse_filename_components` extracts the encoded Day, Tile
and Well from a filename containing the pattern (the `pre.tails` hypothesis
says the pattern does not also match earlier, which pins `re.search`'s
leftmost match to the encoded occurrence; digits are maximal and wells are
terminated by `.tif` as in the source regexes).  (4): a field whose pattern
matches nowhere is `None`.  (5)-(6): the same two statements for
`parse_day_and_well`.  (7)-(8): rows whose key parse failed are excluded
from every `(Day, Well)` group of the intermittent aggregation and from
every tiles group of `per_day_sample_stats`. -/
theorem C4_filename_parsing_and_exclusion :
    (∀ (pre ds post : List Char),
      (∀ s ∈ pre.tails, s ≠ [] →
        matchDayAt (s ++ ('D' :: 'a' :: 'y' :: (ds ++ post))) = none) →
      ds ≠ [] → (∀ ch ∈ ds, ch.isDigit = true) →
      (∀ ch, post.head? = some ch → ch.isDigit = false) →
      (parse_filename_components
          (String.mk (pre ++ 'D' :: 'a' :: 'y' :: (ds ++ post)))).1 =
        some (digitsVal ds)) ∧
    (∀ (pre ds post : List Char),
      (∀ s ∈ pre.tails, s ≠ [] →
        matchTileAt (s ++ ('T' :: 'i' :: 'l' :: 'e' :: '-' :: (ds ++ post))) = none) →
      ds ≠ [] → (∀ ch ∈ ds, ch.isDigit = true) →
      (∀ ch, post.head? = some ch → ch.isDigit = false) →
      (parse_filename_components
          (String.mk (pre ++ 'T' :: 'i' :: 'l' :: 'e' :: '-' :: (ds ++ post)))).2.1 =
        some (digitsVal ds)) ∧
    (∀ (pre ds post : List Char) (L : Char),
      (∀ s ∈ pre.tails, s ≠ [] →
        matchWellAt (s ++ ('_' :: L :: (ds ++ '.' :: 't' :: 'i' :: 'f' :: post))) =
          none) →
      ('A' ≤ L ∧ L ≤ 'Z') → ds ≠ [] → (∀ ch ∈ ds, ch.isDigit = true) →
      (parse_filename_components
          (String.mk (pre ++ '_' :: L :: (ds ++ '.' :: 't' :: 'i' :: 'f' :: post)))).2.2 =
        some (String.mk (L :: ds))) ∧
    (∀ fn : String,
      ((∀ s ∈ fn.data.tails, matchDayAt s = none) →
        (parse_filename_components fn).1 = none) ∧
      ((∀ s ∈ fn.data.tails, matchTileAt s = none) →
        (parse_filename_components fn).2.1 = none) ∧
      ((∀ s ∈ fn.data.tails, matchWellAt s = none) →
        (parse_filename_components fn).2.2 = none)) ∧
    (∀ (pre ds mid : List Char) (r c t i f : Char),
      (∀ s ∈ pre.tails, s ≠ [] →
        matchUDayAt (s ++ ('_' :: 'D' :: 'a' :: 'y' ::
          (ds ++ '_' :: (mid ++ ['_', r, c, '.', t, i, f])))) = none) →
      ds ≠ [] → (∀ ch ∈ ds, ch.isDigit = true) →
      (r = 'A' ∨ r = 'a' ∨ r = 'B' ∨ r = 'b') → ('1' ≤ c ∧ c ≤ '6') →
      (t = 't' ∨ t = 'T') → (i = 'i' ∨ i = 'I') → (f = 'f' ∨ f = 'F') →
      parse_day_and_well (String.mk (pre ++ '_' :: 'D' :: 'a' :: 'y' ::
          (ds ++ '_' :: (mid ++ ['_', r, c, '.', t, i, f])))) =
        some (digitsVal ds, String.mk [r.toUpper, c])) ∧
    (∀ img : String,
      ((∀ s ∈ img.data.tails, matchUDayAt s = none) ∨ searchWellEnd img.data = none) →
      parse_day_and_well img = none) ∧
    (∀ (rows : List (String × ℚ)) (r : String × ℚ) (k : Nat × String),
      groupKeyDW r.1 = none →
      r ∉ rows.filter fun r2 => decide (groupKeyDW r2.1 = some k)) ∧
    (∀ (rows : List (String × Option ℚ)) (r : String × Option ℚ) (k : Nat × String),
      parse_day_and_well r.1 = none →
      r ∉ rows.filter fun r2 => decide (parse_day_and_well r2.1 = some k)) := by
  refine ⟨?_, ?_, ?_, ?_, ?_, ?_, ?_, ?_⟩
  · intro pre ds post hpre hne hdig hpost
    show scan matchDayAt (pre ++ ('D' :: 'a' :: 'y' :: (ds ++ post))) =
      some (digitsVal ds)
    rw [scan_append _ _ hpre]
    apply scan_of_match
    have htd := takeDigits_append hdig hpost
    cases ds with
    | nil => exact absurd rfl hne
    | cons d dtl =>
      simp only [List.cons_append] at htd
      simp [matchDayAt, htd]
  · intro pre ds post hpre hne hdig hpost
    show scan matchTileAt (pre ++ ('T' :: 'i' :: 'l' :: 'e' :: '-' :: (ds ++ post))) =
      some (digitsVal ds)
    rw [scan_append _ _ hpre]
    apply scan_of_match
    have htd := takeDigits_append hdig hpost
    cases ds with
    | nil => exact absurd rfl hne
    | cons d dtl =>
      simp only [List.cons_append] at htd
      simp [matchTileAt, htd]
  · intro pre ds post L hpre hL hne hdig
    show (scan matchWellAt
        (pre ++ ('_' :: L :: (ds ++ '.' :: 't' :: 'i' :: 'f' :: post)))).map
        (fun cs => String.mk cs) = some (String.mk (L :: ds))
    rw [scan_append _ _ hpre]
    have hdot : ∀ ch, ('.' :: 't' :: 'i' :: 'f' :: post).head? = some ch →
        ch.isDigit = false := by
      intro ch hch
      have : ch = '.' := by simpa using hch.symm
      subst this
      decide
    have htd := takeDigits_append hdig hdot
    have htif : ".tif".toList = ['.', 't', 'i', 'f'] := rfl
    have hmatch : matchWellAt ('_' :: L :: (ds ++ '.' :: 't' :: 'i' :: 'f' :: post)) =
        some (L :: ds) := by
      cases ds with
      | nil => exact absurd rfl hne
      | cons d dtl =>
        simp only [List.cons_append] at htd
        simp [matchWellAt, hL, htd, htif, List.isPrefixOf]
    rw [scan_of_match hmatch]
    rfl
  · intro fn
    refine ⟨fun h => ?_, fun h => ?_, fun h => ?_⟩
    · exact (scan_eq_none_iff _ _).2 h
    · exact (scan_eq_none_iff _ _).2 h
    · show (scan matchWellAt fn.data).map (fun cs => String.mk cs) = none
      rw [(scan_eq_none_iff _ _).2 h]
      rfl
  · intro pre ds mid r c t i f hpre hne hdig hr hc ht hi hf
    have hday : scan matchUDayAt (pre ++ ('_' :: 'D' :: 'a' :: 'y' ::
        (ds ++ '_' :: (mid ++ ['_', r, c, '.', t, i, f])))) = some (digitsVal ds) := by
      rw [scan_append _ _ hpre]
      apply scan_of_match
      have hus : ∀ ch, ('_' :: (mid ++ ['_', r, c, '.', t, i, f])).head? = some ch →
          ch.isDigit = false := by
        intro ch hch
        have : ch = '_' := by simpa using hch.symm
        subst this
        decide
      have htd := takeDigits_append hdig hus
      cases ds with
      | nil => exact absurd rfl hne
      | cons d dtl =>
        simp only [List.cons_append] at htd
        simp [matchUDayAt, htd]
    have hwell : searchWellEnd (pre ++ ('_' :: 'D' :: 'a' :: 'y' ::
        (ds ++ '_' :: (mid ++ ['_', r, c, '.', t, i, f])))) = some (r, c) := by
      have hform : pre ++ ('_' :: 'D' :: 'a' :: 'y' ::
          (ds ++ '_' :: (mid ++ ['_', r, c, '.', t, i, f]))) =
          (pre ++ ('_' :: 'D' :: 'a' :: 'y' :: (ds ++ '_' :: mid))) ++
            ['_', r, c, '.', t, i, f] := by simp
      rw [hform]
      unfold searchWellEnd
      rw [matchWellEnd_append _ r c t i f hr hc ht hi hf]
    show (match scan matchUDayAt (pre ++ ('_' :: 'D' :: 'a' :: 'y' ::
        (ds ++ '_' :: (mid ++ ['_', r, c, '.', t, i, f])))),
        searchWellEnd (pre ++ ('_' :: 'D' :: 'a' :: 'y' ::
        (ds ++ '_' :: (mid ++ ['_', r, c, '.', t, i, f])))) with
      | some d, some (r, c) => some (d, String.mk [r.toUpper, c])
      | _, _ => none) = some (digitsVal ds, String.mk [r.toUpper, c])
    rw [hday, hwell]
  · intro img h
    rcases h with h | h
    · have hscan : scan matchUDayAt img.data = none := (scan_eq_none_iff _ _).2 h
      unfold parse_day_and_well
      rw [hscan]
    · unfold parse_day_and_well
      rw [h]
      cases scan matchUDayAt img.data <;> rfl
  · intro rows r k hnone hmem
    obtain ⟨-, hdec⟩ := List.mem_filter.1 hmem
    rw [decide_eq_true_eq] at hdec
    rw [hnone] at hdec
    exact Option.noConfusion hdec
  · intro rows r k hnone hmem
    obtain ⟨-, hdec⟩ := List.mem_filter.1 hmem
    rw [decide_eq_true_eq] at hdec
    rw [hnone] at hdec
    exact Option.noConfusion hdec

/-- Witness for C4: concrete filenames exercising each part — extraction of
day 10, tile 3, well C4, the all-`None` parse of `"nope"`, the untreated
parse of `_Day5_x_A2.tif`, the `None` parse of `"x.png"`, and the exclusion
of an unparseable row from concrete groups. -/
theorem C4_witness :
    (parse_filename_components (String.mk (['X', '_'] ++ 'D' :: 'a' :: 'y' ::
        (['1', '0'] ++ ['_', 'F'])))).1 = some (digitsVal ['1', '0']) ∧
    (parse_filename_components (String.mk (['X', '_'] ++ 'T' :: 'i' :: 'l' :: 'e' :: '-' ::
        (['3'] ++ ['_', 'C'])))).2.1 = some (digitsVal ['3']) ∧
    (parse_filename_components (String.mk (['x'] ++ '_' :: 'C' ::
        (['4'] ++ '.' :: 't' :: 'i' :: 'f' :: [])))).2.2 =
      some (String.mk ('C' :: ['4'])) ∧
    ((parse_filename_components "nope").1 = none ∧
     (parse_filename_components "nope").2.1 = none ∧
     (parse_filename_components "nope").2.2 = none) ∧
    parse_day_and_well (String.mk ([] ++ '_' :: 'D' :: 'a' :: 'y' ::
        (['5'] ++ '_' :: (['x'] ++ ['_', 'A', '2', '.', 't', 'i', 'f'])))) =
      some (digitsVal ['5'], String.mk ['A'.toUpper, '2']) ∧
    parse_day_and_well "x.png" = none ∧
    ("bad.png", (5 : ℚ)) ∉ [("bad.png", (5 : ℚ))].filter
      (fun r2 => decide (groupKeyDW r2.1 = some (1, "C4"))) ∧
    ("bad.png", (some 5 : Option ℚ)) ∉ [("bad.png", (some 5 : Option ℚ))].filter
      (fun r2 => decide (parse_day_and_well r2.1 = some (1, "C4"))) :=
  ⟨C4_filename_parsing_and_exclusion.1 ['X', '_'] ['1', '0'] ['_', 'F']
      (by decide) (by decide) (by decide) (by decide),
   C4_filename_parsing_and_exclusion.2.1 ['X', '_'] ['3'] ['_', 'C']
      (by decide) (by decide) (by decide) (by decide),
   C4_filename_parsing_and_exclusion.2.2.1 ['x'] ['4'] [] 'C'
      (by decide) (by decide) (by decide) (by decide),
   ⟨(C4_filename_parsing_and_exclusion.2.2.2.1 "nope").1 (by decide),
    (C4_filename_parsing_and_exclusion.2.2.2.1 "nope").2.1 (by decide),
    (C4_filename_parsing_and_exclusion.2.2.2.1 "nope").2.2 (by decide)⟩,
   C4_filename_parsing_and_exclusion.2.2.2.2.1 [] ['5'] ['x'] 'A' '2' 't' 'i' 'f'
      (by decide) (by decide) (by decide) (by decide) (by decide) (by decide)
      (by decide) (by decide),
   C4_filename_parsing_and_exclusion.2.2.2.2.2.1 "x.png" (Or.inl (by decide)),
   C4_filename_parsing_and_exclusion.2.2.2.2.2.2.1
      [("bad.png", 5)] ("bad.png", 5) (1, "C4") (by decide),
   C4_filename_parsing_and_exclusion.2.2.2.2.2.2.2
      [("bad.png", some 5)] ("bad.png", some 5) (1, "C4") (by decide)⟩

/-! ## Claim C7 -/

/-- C7 is false as stated: the files written through pandas
`DataFrame.to_csv` (default encoding `utf-8`) carry no byte-order mark; here
the 20k output of `split_csv_by_wells`. -/
theorem C7_counterexample :
    (split_seeding_to_csv ["Image", "Cells"] [["a_C4.tif", "1"]]).bom = false ∧
    false ≠ true :=
  ⟨rfl, by decide⟩

/-- C7 amended: every output CSV begins with a fixed header row (the
grouping keys followed by the computed statistics, or the input's columns
for the splitters); the scripts writing through Python's `csv` module on
`utf-8-sig` files (the untreated-monoculture scripts) produce UTF-8 with a
byte-order mark, while the pandas-based scripts (`split_seeding_data`,
`create_averages`, `create_day_averages`) produce UTF-8 without one. -/
theorem C7_amended_encoding_and_header :
    (∀ rows, (per_day_sample_stats_out rows).bom = true ∧
      (per_day_sample_stats_out rows).header =
        ["Day", "Well", "N Tiles", "Mean Area Âµm^2", "SD Area Âµm^2",
         "SEM Area Âµm^2"]) ∧
    (∀ rows, (write_per_file_day_averages_out rows).bom = true ∧
      (write_per_file_day_averages_out rows).header =
        ["Day", "N Samples", "Mean Area µm^2", "SD Area µm^2", "SEM Area µm^2"]) ∧
    (∀ hdr rows, (split_csvs_out hdr rows).bom = true ∧
      (split_csvs_out hdr rows).header = hdr) ∧
    (∀ cols rows, (split_seeding_to_csv cols rows).bom = false ∧
      (split_seeding_to_csv cols rows).header = cols) ∧
    (∀ rows, (create_sample_averages_out rows).bom = false ∧
      (create_sample_averages_out rows).header =
        ["Well", "Average_Cells", "StdDev_Cells", "Total_Measurements",
         "Min_Cells", "Max_Cells"]) ∧
    (∀ rows, (create_day_averages_out rows).bom = false ∧
      (create_day_averages_out rows).header =
        ["Day", "Well", "Average_Cells", "Tile_Count"]) ∧
    (∀ rows, (day_averages_out rows).bom = false ∧
      (day_averages_out rows).header =
        ["Day", "Mean_Cells", "Std_Dev_Cells", "Sample_Count", "Std_Error_Cells",
         "CI_95_Margin_Cells", "CI_95_Lower_Cells", "CI_95_Upper_Cells"]) :=
  ⟨fun _ => ⟨rfl, rfl⟩, fun _ => ⟨rfl, rfl⟩, fun _ _ => ⟨rfl, rfl⟩,
   fun _ _ => ⟨rfl, rfl⟩, fun _ => ⟨rfl, rfl⟩, fun _ => ⟨rfl, rfl⟩,
   fun _ => ⟨rfl, rfl⟩⟩

end CGD
